import Mathlib

set_option maxRecDepth 8192

/-!
Verification development for the DeepAgent server (src/server.py).

The definitions below are a shallow embedding of the parts of the server
relevant to the verified properties:

  - the MCP tool result arbitration in `wrap_mcp_tool` (server.py lines
    281-369): normalization of raw tool results, the 10,000-character
    size check, spooling to `mcp_output/`, and intelligent truncation;
  - the browser tool wrapping in `AgentManager.initialize_agent`
    (server.py lines 222-248): forcing the `headless` keyword argument
    and annotating the tool description;
  - the agent lifecycle driven by the `/api/chat` endpoint (server.py
    lines 576-584, 492-504): conditional reinitialization of the single
    shared agent instance;
  - the streaming event generator `chat.generate` (server.py lines
    599-664): mapping agent state snapshots to server-sent events with
    tool-call deduplication and a single terminal event;
  - the conversation history limit (server.py lines 592-596 and 700-703).

Python values flowing through `wrap_mcp_tool` are modelled by the JSON-like
type `JValue` (strings, integers, booleans, None, lists, dicts), plus
`RawResult` which additionally covers the tuple results MCP tools return.
File system side effects (creating and writing the spool file) are modelled
by boolean oracles stating whether each operation succeeds.
-/

/-- JSON-like values: the shapes of tool results handled by `wrap_mcp_tool`
(strings, numbers, booleans, None, lists and dicts). Python floats are not
modelled; numbers are integers. -/
inductive JValue where
  | str (s : String)
  | num (n : Int)
  | bool (b : Bool)
  | null
  | arr (xs : List JValue)
  | obj (kvs : List (String × JValue))

/-- Hexadecimal digit character for \uXXXX escapes (lowercase, as Python). -/
def hexDigitChar (n : Nat) : Char :=
  if n < 10 then Char.ofNat (48 + n) else Char.ofNat (87 + n)

/-- Escaping of one character in a JSON string literal, as performed by
`json.dumps` with default `ensure_ascii=True`. -/
def escapeChar (c : Char) : String :=
  if c = '"' then "\\\""
  else if c = '\\' then "\\\\"
  else if c = '\n' then "\\n"
  else if c = '\t' then "\\t"
  else if c = '\r' then "\\r"
  else if c = '\x08' then "\\b"
  else if c = '\x0c' then "\\f"
  else if c.toNat < 32 then
    "\\u00" ++ String.mk [hexDigitChar (c.toNat / 16), hexDigitChar (c.toNat % 16)]
  else if c.toNat ≥ 127 then
    "\\u" ++ String.mk [hexDigitChar (c.toNat / 4096 % 16), hexDigitChar (c.toNat / 256 % 16),
      hexDigitChar (c.toNat / 16 % 16), hexDigitChar (c.toNat % 16)]
  else String.mk [c]

/-- Escaping of a whole string for a JSON string literal. -/
def escapeString (s : String) : String :=
  String.join (s.data.map escapeChar)

/-- A JSON string literal: quote, escaped content, quote. -/
def jsonDumpsStr (s : String) : String :=
  "\"" ++ escapeString s ++ "\""

mutual

/-- Serialization of a `JValue` as produced by Python `json.dumps` with its
default separators: elements joined by a comma and a space, keys and values
joined by a colon and a space. -/
def jsonDumps : JValue → String
  | JValue.str s => jsonDumpsStr s
  | JValue.num n => toString n
  | JValue.bool true => "true"
  | JValue.bool false => "false"
  | JValue.null => "null"
  | JValue.arr xs => "[" ++ jsonDumpsList xs ++ "]"
  | JValue.obj kvs => "\x7b" ++ jsonDumpsObj kvs ++ "\x7d"

/-- Serialization of the elements of a JSON array, comma-space separated. -/
def jsonDumpsList : List JValue → String
  | [] => ""
  | [x] => jsonDumps x
  | x :: y :: rest => jsonDumps x ++ ", " ++ jsonDumpsList (y :: rest)

/-- Serialization of the members of a JSON object, comma-space separated. -/
def jsonDumpsObj : List (String × JValue) → String
  | [] => ""
  | [kv] => jsonDumpsStr kv.1 ++ ": " ++ jsonDumps kv.2
  | kv :: kv2 :: rest => jsonDumpsStr kv.1 ++ ": " ++ jsonDumps kv.2 ++ ", " ++ jsonDumpsObj (kv2 :: rest)

end

/-- Skip JSON whitespace. -/
def skipWs : List Char → List Char
  | [] => []
  | c :: rest => if c = ' ' || c = '\t' || c = '\n' || c = '\r' then skipWs rest else c :: rest

/-- Value of a hexadecimal digit, if any. -/
def hexVal (c : Char) : Option Nat :=
  if c.isDigit then some (c.toNat - 48)
  else if 97 ≤ c.toNat && c.toNat ≤ 102 then some (c.toNat - 87)
  else if 65 ≤ c.toNat && c.toNat ≤ 70 then some (c.toNat - 55)
  else none

/-- Body of a JSON string literal after the opening quote: returns the decoded
characters and the input remaining after the closing quote. -/
def parseStrBody : List Char → Option (List Char × List Char)
  | [] => none
  | '"' :: rest => some ([], rest)
  | '\\' :: '"' :: rest => (parseStrBody rest).map (fun p => ('"' :: p.1, p.2))
  | '\\' :: '\\' :: rest => (parseStrBody rest).map (fun p => ('\\' :: p.1, p.2))
  | '\\' :: '/' :: rest => (parseStrBody rest).map (fun p => ('/' :: p.1, p.2))
  | '\\' :: 'n' :: rest => (parseStrBody rest).map (fun p => ('\n' :: p.1, p.2))
  | '\\' :: 't' :: rest => (parseStrBody rest).map (fun p => ('\t' :: p.1, p.2))
  | '\\' :: 'r' :: rest => (parseStrBody rest).map (fun p => ('\r' :: p.1, p.2))
  | '\\' :: 'b' :: rest => (parseStrBody rest).map (fun p => ('\x08' :: p.1, p.2))
  | '\\' :: 'f' :: rest => (parseStrBody rest).map (fun p => ('\x0c' :: p.1, p.2))
  | '\\' :: 'u' :: a :: b :: c :: d :: rest =>
      match hexVal a, hexVal b, hexVal c, hexVal d with
      | some ha, some hb, some hc, some hd =>
          (parseStrBody rest).map (fun p => (Char.ofNat (((ha * 16 + hb) * 16 + hc) * 16 + hd) :: p.1, p.2))
      | _, _, _, _ => none
  | '\\' :: _ => none
  | c :: rest => if c.toNat < 32 then none else (parseStrBody rest).map (fun p => (c :: p.1, p.2))

/-- Leading run of decimal digits of the input, and the rest. -/
def takeDigits : List Char → List Char × List Char
  | [] => ([], [])
  | c :: rest =>
      if c.isDigit then
        let p := takeDigits rest
        (c :: p.1, p.2)
      else ([], c :: rest)

/-- Natural number denoted by a list of decimal digit characters. -/
def digitsToNat (ds : List Char) : Nat :=
  ds.foldl (fun acc c => acc * 10 + (c.toNat - 48)) 0

/-- Integer JSON number starting at the given digits. Floating point numbers
(a fraction or exponent part) are rejected: floats are outside the model. -/
def parseNumTail (neg : Bool) (cs : List Char) : Option (JValue × List Char) :=
  let p := takeDigits cs
  if p.1.isEmpty then none
  else if p.1.length > 1 && p.1.headD '0' = '0' then none
  else
    match p.2 with
    | '.' :: _ => none
    | 'e' :: _ => none
    | 'E' :: _ => none
    | _ =>
        let n : Int := Int.ofNat (digitsToNat p.1)
        some (JValue.num (if neg then -n else n), p.2)

mutual

/-- Fuel-bounded JSON value recognizer modelling `json.loads` (server.py line
304). The fuel chosen by `jsonParse` always suffices for the input length. -/
def parseVal : Nat → List Char → Option (JValue × List Char)
  | 0, _ => none
  | Nat.succ fuel, cs =>
      match skipWs cs with
      | 'n' :: 'u' :: 'l' :: 'l' :: rest => some (JValue.null, rest)
      | 't' :: 'r' :: 'u' :: 'e' :: rest => some (JValue.bool true, rest)
      | 'f' :: 'a' :: 'l' :: 's' :: 'e' :: rest => some (JValue.bool false, rest)
      | '"' :: rest =>
          match parseStrBody rest with
          | some p => some (JValue.str (String.mk p.1), p.2)
          | none => none
      | '[' :: rest =>
          match skipWs rest with
          | ']' :: r2 => some (JValue.arr [], r2)
          | r1 =>
              match parseElems fuel r1 with
              | some p => some (JValue.arr p.1, p.2)
              | none => none
      | '\x7b' :: rest =>
          match skipWs rest with
          | '\x7d' :: r2 => some (JValue.obj [], r2)
          | r1 =>
              match parseMembers fuel r1 with
              | some p => some (JValue.obj p.1, p.2)
              | none => none
      | '-' :: rest => parseNumTail true rest
      | c :: rest => if c.isDigit then parseNumTail false (c :: rest) else none
      | [] => none

/-- Comma-separated JSON array elements up to the closing bracket. -/
def parseElems : Nat → List Char → Option (List JValue × List Char)
  | 0, _ => none
  | Nat.succ fuel, cs =>
      match parseVal fuel cs with
      | none => none
      | some p =>
          match skipWs p.2 with
          | ',' :: r2 =>
              match parseElems fuel r2 with
              | some q => some (p.1 :: q.1, q.2)
              | none => none
          | ']' :: r2 => some ([p.1], r2)
          | _ => none

/-- Comma-separated JSON object members up to the closing brace. -/
def parseMembers : Nat → List Char → Option (List (String × JValue) × List Char)
  | 0, _ => none
  | Nat.succ fuel, cs =>
      match skipWs cs with
      | '"' :: rest =>
          match parseStrBody rest with
          | none => none
          | some kp =>
              match skipWs kp.2 with
              | ':' :: r2 =>
                  match parseVal fuel r2 with
                  | none => none
                  | some p =>
                      match skipWs p.2 with
                      | ',' :: r3 =>
                          match parseMembers fuel r3 with
                          | some q => some ((String.mk kp.1, p.1) :: q.1, q.2)
                          | none => none
                      | '\x7d' :: r3 => some ([(String.mk kp.1, p.1)], r3)
                      | _ => none
              | _ => none
      | _ => none

end

/-- Model of `json.loads` on a whole input string: parse one value and require
only whitespace to remain. Returns `none` when the input is not valid JSON,
modelling the caught `json.JSONDecodeError`. -/
def jsonParse (s : String) : Option JValue :=
  match parseVal (2 * s.length + 2) s.data with
  | some p => if (skipWs p.2).isEmpty then some p.1 else none
  | none => none

/-- Raw result of invoking an MCP tool before normalization: either a Python
tuple (MCP tools often return data and metadata pairs, server.py line 297) or
a plain value. -/
inductive RawResult where
  | tup (xs : List JValue)
  | val (v : JValue)

/-- Normalization performed by `wrap_mcp_tool.wrapped_func` before the size
check (server.py lines 295-306): a nonempty tuple is replaced by its first
element, and a string that parses as JSON is replaced by the parsed value. -/
def normalizeResult (r : RawResult) : RawResult :=
  let r1 :=
    match r with
    | RawResult.tup (x :: _) => RawResult.val x
    | _ => r
  match r1 with
  | RawResult.val (JValue.str s) =>
      match jsonParse s with
      | some v => RawResult.val v
      | none => RawResult.val (JValue.str s)
  | _ => r1

/-- The `result_str` of server.py line 309: `json.dumps(result)` when the
result is a dict or list, else Python `str(result)`. A tuple surviving
normalization is necessarily empty, whose Python `str` form is two characters. -/
def resultStr : RawResult → String
  | RawResult.val (JValue.obj kvs) => jsonDumps (JValue.obj kvs)
  | RawResult.val (JValue.arr xs) => jsonDumps (JValue.arr xs)
  | RawResult.val (JValue.str s) => s
  | RawResult.val (JValue.num n) => toString n
  | RawResult.val (JValue.bool true) => "True"
  | RawResult.val (JValue.bool false) => "False"
  | RawResult.val JValue.null => "None"
  | RawResult.tup _ => "()"

/-- Python slicing `s[:n]`: the first `n` characters of `s`. -/
def strTake (s : String) (n : Nat) : String :=
  String.mk (s.data.take n)

/-- Per-field truncation of a dict value (server.py lines 332-335): a string
value longer than 200 characters is cut at 200 and marked with an ellipsis;
any other value is kept unchanged. -/
def truncateValue200 (v : JValue) : JValue :=
  match v with
  | JValue.str s => if s.length > 200 then JValue.str (strTake s 200 ++ "...") else JValue.str s
  | v => v

/-- Truncation of one list item (server.py lines 341-351): dict items have
their fields truncated like a top-level dict, other items are kept unchanged. -/
def truncateItem (item : JValue) : JValue :=
  match item with
  | JValue.obj kvs => JValue.obj (kvs.map (fun kv => (kv.1, truncateValue200 kv.2)))
  | item => item

/-- The delivered payload computed for an oversized result (server.py lines
326-359): dicts keep all keys with per-field truncation; lists keep their
first five items (item-truncated) plus an omission marker when longer than
five; anything else becomes the first 2000 characters of `result_str` plus
an ellipsis. -/
def truncateResult (r : RawResult) (result_str : String) : RawResult :=
  match r with
  | RawResult.val (JValue.obj kvs) =>
      RawResult.val (JValue.obj (kvs.map (fun kv => (kv.1, truncateValue200 kv.2))))
  | RawResult.val (JValue.arr xs) =>
      let truncated := (xs.take 5).map truncateItem
      if xs.length > 5 then
        RawResult.val (JValue.arr (truncated ++ [JValue.str ("... and " ++ toString (xs.length - 5) ++ " more items")]))
      else RawResult.val (JValue.arr truncated)
  | _ =>
      RawResult.val (JValue.str (if result_str.length > 2000 then strTake result_str 2000 ++ "..." else result_str))

/-- Name of the spool file for an oversized result (server.py line 315). -/
def spoolFileName (toolName timestamp : String) : String :=
  "mcp_output/" ++ toolName ++ "_" ++ timestamp ++ ".json"

/-- One call through `wrap_mcp_tool.wrapped_func` (server.py lines 285-361),
after normalization. The boolean oracles model the file system: `openOk` is
whether creating and opening the spool file succeeds; `firstWriteOk` whether
the `json.dump` / `f.write` inside the `try` succeeds; `secondWriteOk`
whether the fallback `f.write(result_str)` in the bare `except` succeeds.
An exception from `open` or from the fallback write propagates out of the
wrapper (only the first write attempt is inside a `try`), modelled as
`Except.error`; otherwise the truncated payload is returned. Results at most
10,000 characters are returned as normalized, with no spooling. -/
def wrapped_mcp_call (toolName timestamp : String)
    (openOk firstWriteOk secondWriteOk : Bool) (raw : RawResult) : Except String RawResult :=
  if (resultStr (normalizeResult raw)).length > 10000 then
    if openOk then
      if firstWriteOk then
        Except.ok (truncateResult (normalizeResult raw) (resultStr (normalizeResult raw)))
      else if secondWriteOk then
        Except.ok (truncateResult (normalizeResult raw) (resultStr (normalizeResult raw)))
      else Except.error ("cannot write " ++ spoolFileName toolName timestamp)
    else Except.error ("cannot open " ++ spoolFileName toolName timestamp)
  else Except.ok (normalizeResult raw)

/-- Payload actually delivered to the reasoning loop: the returned value when
the wrapper returns normally, nothing when it raises. -/
def deliveredOf : Except String RawResult → Option RawResult
  | Except.ok r => some r
  | Except.error _ => none

/-- Keyword argument assignment `kwargs[key] = v` on a Python dict modelled as
an association list with unique keys: replace the binding if the key is
present, otherwise append it. -/
def setKwarg : List (String × JValue) → String → JValue → List (String × JValue)
  | [], key, v => [(key, v)]
  | kv :: rest, key, v =>
      if kv.1 = key then (key, v) :: rest else kv :: setKwarg rest key v

/-- Lookup of a keyword argument. -/
def lookupKwarg (kwargs : List (String × JValue)) (key : String) : Option JValue :=
  (kwargs.find? (fun kv => kv.1 = key)).map (fun kv => kv.2)

/-- Arguments actually passed to the original browser tool function by
`create_wrapped_browser_tool.wrapped_func` (server.py lines 229-236): the
caller kwargs with `headless` forced to the runtime flag value. -/
def wrappedBrowserArgs (headless_val : Bool) (kwargs : List (String × JValue)) : List (String × JValue) :=
  setKwarg kwargs "headless" (JValue.bool headless_val)

/-- The wrapped browser tool invocation: calls the original function on the
forced arguments (server.py lines 229-236). -/
def wrappedBrowserCall (original : List (String × JValue) → JValue)
    (headless_val : Bool) (kwargs : List (String × JValue)) : JValue :=
  original (wrappedBrowserArgs headless_val kwargs)

/-- Description of the wrapped browser tool (server.py line 243): the original
description with the human-readable browser mode annotation appended. -/
def wrapBrowserDesc (desc : String) (headless : Bool) : String :=
  desc ++ " (Browser mode: " ++ (if headless then "headless/invisible" else "visible/slow") ++ ")"

/-- State of the `AgentManager` singleton: the current agent instance (if any)
identified by a build counter, and the next fresh instance identifier. The
counter stands for object identity: each call to `initialize_agent` creates
a distinct agent object. -/
structure AgentSlot where
  agent : Option Nat
  nextId : Nat
deriving DecidableEq

/-- Model of `AgentManager.initialize_agent` (server.py lines 205-490): build
a fresh agent, store it in the slot and return it. -/
def initAgent (s : AgentSlot) : AgentSlot × Nat :=
  (AgentSlot.mk (some s.nextId) (s.nextId + 1), s.nextId)

/-- Model of `AgentManager.reinitialize_agent` (server.py lines 498-504):
discard the current agent and MCP client, then build a fresh agent. -/
def reinitAgent (s : AgentSlot) : AgentSlot × Nat :=
  initAgent (AgentSlot.mk none s.nextId)

/-- Model of `AgentManager.get_agent` (server.py lines 492-496): return the
stored agent, building one first when the slot is empty. -/
def getAgent (s : AgentSlot) : AgentSlot × Nat :=
  match s.agent with
  | some a => (s, a)
  | none => initAgent s

/-- Python truthiness of an optional string field: `None` and the empty
string are falsy. -/
def pyTruthy : Option String → Bool
  | none => false
  | some s => !(s = "")

/-- The request fields of `ChatRequest` that drive agent reinitialization
(server.py lines 536-542): `system_prompt` and `model` default to `None`,
`headless` defaults to `True`. -/
structure ChatReq where
  system_prompt : Option String
  model : Option String
  headless : Bool
deriving DecidableEq

/-- The reinitialization condition of the `chat` endpoint (server.py line
577): `request.system_prompt or request.model or request.headless != True`. -/
def needsReinit (r : ChatReq) : Bool :=
  pyTruthy r.system_prompt || pyTruthy r.model || !r.headless

/-- Agent acquisition in the `chat` endpoint (server.py lines 576-584): when
any of the three fields is supplied (truthy prompt or model, or
`headless=False`), reinitialize the agent, then fetch the current instance. -/
def chatEnsure (r : ChatReq) (s : AgentSlot) : AgentSlot × Nat :=
  if needsReinit r then getAgent (reinitAgent s).1
  else getAgent s

/-- One entry of `last_message.tool_calls` in a streamed chunk: the dict may
lack any of the keys, mirrored by optional fields (server.py lines 616-627
access them with `.get` and defaults). -/
structure ToolCall where
  name : Option String
  id : Option String
  args : JValue

/-- The tool name used for logging and the thinking event:
`tool_call.get('name', 'unknown')`. -/
def tcName (tc : ToolCall) : String := tc.name.getD "unknown"

/-- The call id used in the deduplication key: `tool_call.get('id', '')`. -/
def tcId (tc : ToolCall) : String := tc.id.getD ""

/-- Deduplication key of a tool call (server.py line 618):
`f"{name}_{id}"`. -/
def toolCallKey (tc : ToolCall) : String :=
  tcName tc ++ "_" ++ tcId tc

/-- The last message of a streamed state snapshot, as discriminated by the
generator (server.py lines 611-647): an `AIMessage` carrying content and tool
calls, or any other message type (tool results, human turns), which produces
no event. -/
inductive Message where
  | ai (content : String) (tool_calls : List ToolCall)
  | other

/-- Loop state of `chat.generate` (server.py lines 601-603). -/
structure GenState where
  finalResponse : String
  stepCount : Nat
  seen : List String

/-- Initial generator state: empty final response, zero steps, no tool call
seen. -/
def initGenState : GenState := GenState.mk "" 0 []

/-- Server-sent events produced by `chat.generate`. A thinking event records
the tool name and call id of the pending call that produced it; the rendered
payload is given by `eventData` below. -/
inductive SSEEvent where
  | thinking (name : String) (id : String)
  | token (content : String)
  | final (content : String)
  | error (content : String)
deriving DecidableEq

/-- The `type` field of the JSON payload of an event. -/
def eventType : SSEEvent → String
  | SSEEvent.thinking _ _ => "thinking"
  | SSEEvent.token _ => "token"
  | SSEEvent.final _ => "final"
  | SSEEvent.error _ => "error"

/-- The `content` field of the JSON payload of an event: a thinking event
carries only `Calling {tool_name}...` (server.py line 637). -/
def eventContent : SSEEvent → String
  | SSEEvent.thinking n _ => "Calling " ++ n ++ "..."
  | SSEEvent.token c => c
  | SSEEvent.final c => c
  | SSEEvent.error c => c

/-- The exact string yielded to the HTTP stream for an event:
`f"data: {json.dumps({'type': ..., 'content': ...})}\n\n"`. -/
def eventData (e : SSEEvent) : String :=
  "data: " ++ jsonDumps (JValue.obj [("type", JValue.str (eventType e)), ("content", JValue.str (eventContent e))]) ++ "\n\n"

/-- Processing of the tool calls of an `AIMessage` (server.py lines 615-637):
each call whose key is not yet in `seen_tool_calls` is added to the set,
increments the step counter and yields one thinking event; already seen calls
are skipped. -/
def processToolCalls : GenState → List ToolCall → GenState × List SSEEvent
  | st, [] => (st, [])
  | st, tc :: rest =>
      if toolCallKey tc ∈ st.seen then processToolCalls st rest
      else
        let st1 := GenState.mk st.finalResponse (st.stepCount + 1) (toolCallKey tc :: st.seen)
        let res := processToolCalls st1 rest
        (res.1, SSEEvent.thinking (tcName tc) (tcId tc) :: res.2)

/-- Processing of the last message of a snapshot (server.py lines 611-647):
an `AIMessage` with nonempty tool calls goes through tool call processing; an
`AIMessage` with truthy content is stripped and, when nonempty and different
from the current final response, is emitted as a full-content token event;
anything else is ignored. -/
def processMessage (st : GenState) (m : Message) : GenState × List SSEEvent :=
  match m with
  | Message.ai content tool_calls =>
      match tool_calls with
      | _ :: _ => processToolCalls st tool_calls
      | [] =>
          if content = "" then (st, [])
          else
            let c := content.trim
            if c ≠ "" ∧ c ≠ st.finalResponse then
              (GenState.mk c st.stepCount st.seen, [SSEEvent.token c])
            else (st, [])
  | Message.other => (st, [])

/-- Processing of one streamed chunk (server.py lines 606-612): a chunk with
no messages is skipped, otherwise only the last message is examined. -/
def processSnapshot (st : GenState) (msgs : List Message) : GenState × List SSEEvent :=
  match msgs.getLast? with
  | none => (st, [])
  | some m => processMessage st m

/-- Processing of the whole snapshot sequence, threading the generator state
and concatenating the emitted events in order. -/
def processSnapshots : GenState → List (List Message) → GenState × List SSEEvent
  | st, [] => (st, [])
  | st, s :: rest =>
      let r1 := processSnapshot st s
      let r2 := processSnapshots r1.1 rest
      (r2.1, r1.2 ++ r2.2)

/-- The full event stream of `chat.generate` (server.py lines 599-664) for a
source that yields `snaps` and then either completes (`failure = none`) or
raises with the given description. On normal completion exactly one final
event is appended, carrying the accumulated final response or the fallback
text; on failure exactly one error event is appended. -/
def generate (snaps : List (List Message)) (failure : Option String) : List SSEEvent :=
  let r := processSnapshots initGenState snaps
  match failure with
  | some e => r.2 ++ [SSEEvent.error e]
  | none =>
      if r.1.finalResponse ≠ "" then r.2 ++ [SSEEvent.final r.1.finalResponse]
      else r.2 ++ [SSEEvent.final "Task completed."]

/-- Whether an event is a terminal event of the stream. -/
def isTerminal : SSEEvent → Bool
  | SSEEvent.final _ => true
  | SSEEvent.error _ => true
  | _ => false

/-- Number of thinking events for one tool call identity in a stream. -/
def countThinking (n i : String) : List SSEEvent → Nat
  | [] => 0
  | e :: rest => (if e = SSEEvent.thinking n i then 1 else 0) + countThinking n i rest

/-- Number of terminal events in a stream. -/
def countTerminal : List SSEEvent → Nat
  | [] => 0
  | e :: rest => (if isTerminal e then 1 else 0) + countTerminal rest

/-- Whether `needle` occurs as a contiguous substring of `hay`. -/
def strContains (hay needle : String) : Bool :=
  (List.range (hay.data.length + 1)).any (fun i => needle.data.isPrefixOf (hay.data.drop i))

/-- One message of a chat request (server.py lines 532-534). -/
structure ChatMessage where
  role : String
  content : String
deriving DecidableEq

/-- Conversation history limiting applied by both the `chat` endpoint
(server.py lines 592-596) and the `structured_chat` endpoint (server.py lines
700-703): when more than 10 messages are present keep only the slice
`messages[-10:]`, else pass the list through unchanged. -/
def limitHistory (msgs : List ChatMessage) : List ChatMessage :=
  if msgs.length > 10 then msgs.drop (msgs.length - 10) else msgs

/-- A tuple result as returned by some MCP tools. -/
def tupleRaw : RawResult := RawResult.tup [JValue.str "a", JValue.str "b"]

/-- A dict result with one key whose value is a large non-string structure. -/
def bigKvs : List (String × JValue) := [("k", JValue.arr (List.replicate 4000 JValue.null))]

/-- The dict result built from `bigKvs`; its serialized form is 24,007
characters, well above the 10,000-character cap. -/
def bigObj : RawResult := RawResult.val (JValue.obj bigKvs)

/-- A 250-character string, longer than the 200-character field cap. -/
def longStr : String := String.mk (List.replicate 250 'x')

/-- A concrete pending tool call with arguments. -/
def tcEx : ToolCall := ToolCall.mk (some "t") (some "1") (JValue.obj [("x", JValue.num 42)])

/-- The same pending tool call with different arguments. -/
def tcEx2 : ToolCall := ToolCall.mk (some "t") (some "1") (JValue.obj [("x", JValue.num 43)])

/-- A chat request supplying a custom system prompt and otherwise default
fields. -/
def reqSame : ChatReq := ChatReq.mk (some "custom prompt") none true

/-- A chat request with every reinitialization-relevant field unspecified or
default. -/
def reqDefault : ChatReq := ChatReq.mk none none true

/-- A manager state with no agent built yet. -/
def slot0 : AgentSlot := AgentSlot.mk none 0

/-- A 12-message conversation history. -/
def msgs12 : List ChatMessage := List.replicate 12 (ChatMessage.mk "user" "hello")

/-- Serialized length of a nonempty run of `null` array elements. -/
theorem lenRepNull (n : Nat) :
    (jsonDumpsList (List.replicate (n + 1) JValue.null)).length = 6 * n + 4 := by
  induction n with
  | zero => rfl
  | succ m ih =>
      rw [List.replicate_succ JValue.null (m + 1), List.replicate_succ JValue.null m]
      rw [show jsonDumpsList (JValue.null :: JValue.null :: List.replicate m JValue.null) =
            jsonDumps JValue.null ++ ", " ++ jsonDumpsList (JValue.null :: List.replicate m JValue.null) from rfl]
      rw [← List.replicate_succ JValue.null m]
      have h4 : (jsonDumps JValue.null).length = 4 := rfl
      have h2 : (", " : String).length = 2 := rfl
      simp only [String.length_append, ih, h4, h2]
      omega

/-- The serialized size of `bigObj`. -/
theorem bigObjLen : (resultStr bigObj).length = 24007 := by
  have hrep : (jsonDumpsList (List.replicate 4000 JValue.null)).length = 23998 := by
    have h := lenRepNull 3999
    norm_num at h
    exact h
  rw [show resultStr bigObj = jsonDumps (JValue.obj bigKvs) from rfl]
  rw [show jsonDumps (JValue.obj bigKvs) = "\x7b" ++ jsonDumpsObj bigKvs ++ "\x7d" from rfl]
  rw [show jsonDumpsObj bigKvs =
        jsonDumpsStr "k" ++ ": " ++ jsonDumps (JValue.arr (List.replicate 4000 JValue.null)) from rfl]
  rw [show jsonDumps (JValue.arr (List.replicate 4000 JValue.null)) =
        "[" ++ jsonDumpsList (List.replicate 4000 JValue.null) ++ "]" from rfl]
  simp only [String.length_append, hrep]
  decide

/-- An oversized result whose spool file opens is delivered truncated as soon
as either the first or the fallback write succeeds. -/
theorem wrapped_spool_delivers (name ts : String) (fOk sOk : Bool) (raw : RawResult)
    (h : (resultStr (normalizeResult raw)).length > 10000) (hw : fOk = true ∨ sOk = true) :
    wrapped_mcp_call name ts true fOk sOk raw =
      Except.ok (truncateResult (normalizeResult raw) (resultStr (normalizeResult raw))) := by
  unfold wrapped_mcp_call
  rw [if_pos h]
  cases hw with
  | inl h1 => subst h1; rfl
  | inr h1 => subst h1; cases fOk <;> rfl

/-- An oversized result whose spool file cannot be opened makes the wrapper
raise. -/
theorem wrapped_openFail (name ts : String) (fOk sOk : Bool) (raw : RawResult)
    (h : (resultStr (normalizeResult raw)).length > 10000) :
    wrapped_mcp_call name ts false fOk sOk raw =
      Except.error ("cannot open " ++ spoolFileName name ts) := by
  unfold wrapped_mcp_call
  rw [if_pos h]
  rfl

/-- An oversized result for which both write attempts fail makes the wrapper
raise from the bare-except fallback write. -/
theorem wrapped_writeFail (name ts : String) (raw : RawResult)
    (h : (resultStr (normalizeResult raw)).length > 10000) :
    wrapped_mcp_call name ts true false false raw =
      Except.error ("cannot write " ++ spoolFileName name ts) := by
  unfold wrapped_mcp_call
  rw [if_pos h]
  rfl

/-- C2 (amended): a tool result whose normalized form serializes to at most
10,000 characters is delivered as that normalized form, unchanged, with no
spooling and no truncation marker; the normalization unwraps nonempty tuples
and parses JSON strings, and is the identity on every plain value that is not
a string, so such raw results are returned exactly unchanged. -/
theorem c2_below_cap_lossless :
    (∀ (name ts : String) (o f s : Bool) (raw : RawResult),
        (resultStr (normalizeResult raw)).length ≤ 10000 →
        wrapped_mcp_call name ts o f s raw = Except.ok (normalizeResult raw)) ∧
    (∀ v : JValue, (∀ s, v ≠ JValue.str s) → normalizeResult (RawResult.val v) = RawResult.val v) := by
  constructor
  · intro name ts o f s raw h
    unfold wrapped_mcp_call
    rw [if_neg (by omega)]
  · intro v hv
    cases v with
    | str s => exact absurd rfl (hv s)
    | num n => rfl
    | bool b => rfl
    | null => rfl
    | arr xs => rfl
    | obj kvs => rfl

/-- C2 witness: a small `None` result is delivered unchanged. -/
theorem c2_below_cap_lossless_witness :
    wrapped_mcp_call "t" "ts" true true true (RawResult.val JValue.null) =
      Except.ok (RawResult.val JValue.null) ∧
    normalizeResult (RawResult.val JValue.null) = RawResult.val JValue.null :=
  ⟨c2_below_cap_lossless.1 "t" "ts" true true true (RawResult.val JValue.null) (by decide),
   c2_below_cap_lossless.2 JValue.null (fun s h => JValue.noConfusion h)⟩

/-- C2 counterexample: a small tuple result (serialized size far below the
cap) is not returned as the raw result: the wrapper unwraps it to its first
element before delivery, so the delivered payload differs from the raw
result. -/
theorem c2_below_cap_counterexample :
    (resultStr (normalizeResult tupleRaw)).length ≤ 10000 ∧
    wrapped_mcp_call "t" "ts" true true true tupleRaw = Except.ok (RawResult.val (JValue.str "a")) ∧
    RawResult.val (JValue.str "a") ≠ tupleRaw := by
  refine ⟨by decide, rfl, ?_⟩
  intro h
  exact RawResult.noConfusion h

/-- C3 (amended): for an oversized mapping the delivered payload keeps every
top-level key, truncating each string value to at most 203 characters (200
plus the ellipsis marker) while keeping every non-string value unchanged; the
total delivered size is therefore not bounded by the cap plus a fixed marker
overhead. -/
theorem c3_mapping_truncation :
    (∀ (kvs : List (String × JValue)) (name ts : String) (s2 : Bool),
        (resultStr (RawResult.val (JValue.obj kvs))).length > 10000 →
        wrapped_mcp_call name ts true true s2 (RawResult.val (JValue.obj kvs)) =
          Except.ok (RawResult.val (JValue.obj (kvs.map (fun kv => (kv.1, truncateValue200 kv.2)))))) ∧
    (∀ (v : JValue) (s : String), truncateValue200 v = JValue.str s → s.length ≤ 203) := by
  constructor
  · intro kvs name ts s2 h
    have hn : normalizeResult (RawResult.val (JValue.obj kvs)) = RawResult.val (JValue.obj kvs) := rfl
    unfold wrapped_mcp_call
    rw [hn, if_pos h]
    rfl
  · intro v s h
    cases v with
    | str t =>
        rw [show truncateValue200 (JValue.str t) =
              if t.length > 200 then JValue.str (strTake t 200 ++ "...") else JValue.str t from rfl] at h
        by_cases ht : t.length > 200
        · rw [if_pos ht] at h
          injection h with he
          rw [← he, String.length_append]
          have h3 : ("..." : String).length = 3 := rfl
          have h200 : (strTake t 200).length ≤ 200 := List.length_take_le 200 t.data
          omega
        · rw [if_neg ht] at h
          injection h with he
          subst he
          omega
    | num n => exact JValue.noConfusion h
    | bool b => exact JValue.noConfusion h
    | null => exact JValue.noConfusion h
    | arr xs => exact JValue.noConfusion h
    | obj kvs => exact JValue.noConfusion h

/-- C3 witness: the oversized dict `bigObj` is delivered with all keys and
per-field truncation, and a 250-character string field is cut to 203
characters. -/
theorem c3_mapping_truncation_witness :
    wrapped_mcp_call "t" "ts" true true true bigObj =
      Except.ok (RawResult.val (JValue.obj (bigKvs.map (fun kv => (kv.1, truncateValue200 kv.2))))) ∧
    (strTake longStr 200 ++ "...").length ≤ 203 := by
  constructor
  · exact c3_mapping_truncation.1 bigKvs "t" "ts" true
      (by show (resultStr bigObj).length > 10000; rw [bigObjLen]; omega)
  · exact c3_mapping_truncation.2 (JValue.str longStr) (strTake longStr 200 ++ "...")
      (by rw [show truncateValue200 (JValue.str longStr) =
                if longStr.length > 200 then JValue.str (strTake longStr 200 ++ "...")
                else JValue.str longStr from rfl, if_pos (by decide)])

/-- C3 counterexample: the delivered payload for the oversized dict `bigObj`
is `bigObj` itself, of serialized size 24,007 characters, exceeding the
10,000-character cap plus even the largest marker overhead in the code
(the 2,003-character scalar cut): the claimed universal size bound fails. -/
theorem c3_size_bound_counterexample :
    wrapped_mcp_call "t" "ts" true true true bigObj = Except.ok bigObj ∧
    (resultStr bigObj).length = 24007 ∧ 10000 + 2003 < (resultStr bigObj).length := by
  have h : (resultStr (normalizeResult bigObj)).length > 10000 := by
    show (resultStr bigObj).length > 10000
    rw [bigObjLen]; omega
  refine ⟨?_, bigObjLen, by rw [bigObjLen]; omega⟩
  rw [wrapped_spool_delivers "t" "ts" true true bigObj h (Or.inl rfl)]
  rfl

/-- C4 (amended): for an oversized result, when the spool file opens, a
failure of the first in-file write (the `json.dump` inside the `try`) is
recovered by the bare-except fallback write and the truncated payload is
still delivered; but a failure to create or open the spool file, or a failure
of the fallback write itself, propagates out of the wrapper and no payload is
delivered at all. -/
theorem c4_spool_write_failure :
    ∀ (name ts : String) (raw : RawResult),
      (resultStr (normalizeResult raw)).length > 10000 →
      (wrapped_mcp_call name ts true false true raw =
          Except.ok (truncateResult (normalizeResult raw) (resultStr (normalizeResult raw)))) ∧
      (∀ f s : Bool, deliveredOf (wrapped_mcp_call name ts false f s raw) = none) ∧
      deliveredOf (wrapped_mcp_call name ts true false false raw) = none := by
  intro name ts raw h
  refine ⟨wrapped_spool_delivers name ts false true raw h (Or.inr rfl), ?_, ?_⟩
  · intro f s
    rw [wrapped_openFail name ts f s raw h]
    rfl
  · rw [wrapped_writeFail name ts raw h]
    rfl

/-- C4 witness: instantiation at the oversized dict `bigObj`. -/
theorem c4_spool_write_failure_witness :
    (wrapped_mcp_call "t" "ts" true false true bigObj =
        Except.ok (truncateResult (normalizeResult bigObj) (resultStr (normalizeResult bigObj)))) ∧
    (∀ f s : Bool, deliveredOf (wrapped_mcp_call "t" "ts" false f s bigObj) = none) ∧
    deliveredOf (wrapped_mcp_call "t" "ts" true false false bigObj) = none :=
  c4_spool_write_failure "t" "ts" bigObj
    (by show (resultStr bigObj).length > 10000; rw [bigObjLen]; omega)

/-- C4 counterexample: with the oversized dict `bigObj`, when opening the
spool file fails the wrapper raises instead of still returning the truncated
payload: truncation is blocked by the persistence failure. -/
theorem c4_spool_write_failure_counterexample :
    (resultStr (normalizeResult bigObj)).length > 10000 ∧
    wrapped_mcp_call "t" "ts" false true true bigObj =
      Except.error ("cannot open " ++ spoolFileName "t" "ts") ∧
    deliveredOf (wrapped_mcp_call "t" "ts" false true true bigObj) = none := by
  have h : (resultStr (normalizeResult bigObj)).length > 10000 := by
    show (resultStr bigObj).length > 10000
    rw [bigObjLen]; omega
  refine ⟨h, wrapped_openFail "t" "ts" true true bigObj h, ?_⟩
  rw [wrapped_openFail "t" "ts" true true bigObj h]
  rfl

/-- C9: the payload delivered to the reasoning loop is computed solely from
the tool result content: it is the same whatever tool name and timestamp make
up the spool file name, so the spool file path never reaches the caller. -/
theorem c9_spool_path_invisible :
    ∀ (n1 t1 n2 t2 : String) (o f s : Bool) (raw : RawResult),
      deliveredOf (wrapped_mcp_call n1 t1 o f s raw) =
        deliveredOf (wrapped_mcp_call n2 t2 o f s raw) := by
  intro n1 t1 n2 t2 o f s raw
  unfold wrapped_mcp_call
  by_cases h : (resultStr (normalizeResult raw)).length > 10000
  · rw [if_pos h, if_pos h]
    cases o <;> cases f <;> cases s <;> rfl
  · rw [if_neg h, if_neg h]

/-- A rebuild-triggering request always produces a brand new agent in the
slot, returning the freshly created instance. -/
theorem chatEnsure_rebuild (r : ChatReq) (s : AgentSlot) (h : needsReinit r = true) :
    chatEnsure r s = (AgentSlot.mk (some s.nextId) (s.nextId + 1), s.nextId) := by
  unfold chatEnsure
  rw [h]
  rfl

/-- A request with all fields default is served by the stored instance. -/
theorem chatEnsure_noRebuild (r : ChatReq) (s : AgentSlot) (a : Nat)
    (h : needsReinit r = false) (ha : s.agent = some a) :
    chatEnsure r s = (s, a) := by
  unfold chatEnsure
  rw [h]
  show getAgent s = (s, a)
  unfold getAgent
  rw [ha]

/-- C1 (amended): a chat request supplying a nonempty system prompt, a
nonempty model, or headless=False always triggers a full rebuild — the slot
is overwritten with a fresh instance distinct from any previously stored one
— even when its fields are identical to those of the previous request; a
request with all three fields unspecified or default never triggers a
rebuild and is served by the existing instance unchanged. -/
theorem c1_rebuild_policy :
    ∀ (r : ChatReq) (s : AgentSlot),
      (needsReinit r = true →
        chatEnsure r s = (AgentSlot.mk (some s.nextId) (s.nextId + 1), s.nextId) ∧
        (∀ a, s.agent = some a → a < s.nextId → (chatEnsure r s).2 ≠ a)) ∧
      (needsReinit r = false → ∀ a, s.agent = some a → chatEnsure r s = (s, a)) := by
  intro r s
  refine ⟨fun h => ⟨chatEnsure_rebuild r s h, ?_⟩, fun h a ha => chatEnsure_noRebuild r s a h ha⟩
  intro a ha hlt heq
  rw [chatEnsure_rebuild r s h] at heq
  have h2 : s.nextId = a := heq
  omega

/-- C1 witness: a request with a custom prompt rebuilds into a fresh
instance; a default request is served by the stored instance. -/
theorem c1_rebuild_policy_witness :
    chatEnsure reqSame (AgentSlot.mk (some 5) 6) = (AgentSlot.mk (some 6) 7, 6) ∧
    chatEnsure reqDefault (AgentSlot.mk (some 5) 6) = (AgentSlot.mk (some 5) 6, 5) :=
  ⟨((c1_rebuild_policy reqSame (AgentSlot.mk (some 5) 6)).1 (by decide)).1,
   (c1_rebuild_policy reqDefault (AgentSlot.mk (some 5) 6)).2 (by decide) 5 rfl⟩

/-- C1 counterexample: two successive requests with identical SessionState
fields (the same custom system prompt, no model, headless=True) do not return
the same instance: the first builds instance 0, the second discards it and
builds instance 1 — the endpoint rebuilds whenever a field is supplied,
identical or not. -/
theorem c1_rebuild_counterexample :
    (chatEnsure reqSame slot0).2 = 0 ∧
    (chatEnsure reqSame (chatEnsure reqSame slot0).1).2 = 1 ∧
    (chatEnsure reqSame (chatEnsure reqSame slot0).1).2 ≠ (chatEnsure reqSame slot0).2 := by
  refine ⟨rfl, rfl, by decide⟩

/-- Looking up the key just assigned in a kwargs dict yields the assigned
value, whatever was there before. -/
theorem lookup_setKwarg (l : List (String × JValue)) (k : String) (v : JValue) :
    lookupKwarg (setKwarg l k v) k = some v := by
  induction l with
  | nil => simp [setKwarg, lookupKwarg, List.find?]
  | cons kv rest ih =>
      by_cases hk : kv.1 = k
      · simp [setKwarg, hk, lookupKwarg, List.find?]
      · simp only [setKwarg, if_neg hk]
        simp only [lookupKwarg, List.find?] at ih ⊢
        rw [show (decide (kv.1 = k)) = false by simp [hk]]
        exact ih

/-- C8: every invocation of the wrapped browser tool calls the original
function with the caller kwargs in which `headless` is forced to the
runtime-flag value, regardless of any caller-supplied binding; and the
wrapped descriptor description is the original description with the
human-readable browser mode note appended. -/
theorem c8_headless_forced :
    ∀ (original : List (String × JValue) → JValue) (hv : Bool)
      (kwargs : List (String × JValue)) (desc : String),
      wrappedBrowserCall original hv kwargs = original (wrappedBrowserArgs hv kwargs) ∧
      lookupKwarg (wrappedBrowserArgs hv kwargs) "headless" = some (JValue.bool hv) ∧
      wrapBrowserDesc desc hv =
        desc ++ " (Browser mode: " ++ (if hv then "headless/invisible" else "visible/slow") ++ ")" ∧
      desc.data.isPrefixOf (wrapBrowserDesc desc hv).data = true := by
  intro original hv kwargs desc
  refine ⟨rfl, lookup_setKwarg kwargs "headless" (JValue.bool hv), rfl, ?_⟩
  have hd : (wrapBrowserDesc desc hv).data =
      desc.data ++ (" (Browser mode: " ++ (if hv then "headless/invisible" else "visible/slow") ++ ")").data := by
    unfold wrapBrowserDesc
    simp [String.data_append, List.append_assoc]
  rw [hd, List.isPrefixOf_iff_prefix]
  exact ⟨_, rfl⟩

/-- C10: both chat endpoints pass a history of at most 10 messages through
unchanged and cut a longer history down to exactly its last 10 messages,
silently dropping the earlier ones. -/
theorem c10_history_limit :
    ∀ msgs : List ChatMessage,
      (msgs.length ≤ 10 → limitHistory msgs = msgs) ∧
      (msgs.length > 10 →
        limitHistory msgs = msgs.drop (msgs.length - 10) ∧ (limitHistory msgs).length = 10) := by
  intro msgs
  constructor
  · intro h
    unfold limitHistory
    rw [if_neg (by omega)]
  · intro h
    unfold limitHistory
    rw [if_pos h]
    refine ⟨rfl, ?_⟩
    rw [List.length_drop]
    omega

/-- C10 witness: a 12-message history is cut to its last 10 messages. -/
theorem c10_history_limit_witness :
    limitHistory msgs12 = msgs12.drop 2 ∧ (limitHistory msgs12).length = 10 := by
  have h := (c10_history_limit msgs12).2 (by decide)
  exact ⟨h.1, h.2⟩

/-- Unfolding equation for the tool call loop on a cons cell. -/
theorem processToolCalls_cons (st : GenState) (tc : ToolCall) (rest : List ToolCall) :
    processToolCalls st (tc :: rest) =
      if toolCallKey tc ∈ st.seen then processToolCalls st rest
      else
        ((processToolCalls (GenState.mk st.finalResponse (st.stepCount + 1) (toolCallKey tc :: st.seen)) rest).1,
         SSEEvent.thinking (tcName tc) (tcId tc) ::
           (processToolCalls (GenState.mk st.finalResponse (st.stepCount + 1) (toolCallKey tc :: st.seen)) rest).2) := rfl

/-- Thinking-event counts add over concatenation. -/
theorem countThinking_append (n i : String) (l1 l2 : List SSEEvent) :
    countThinking n i (l1 ++ l2) = countThinking n i l1 + countThinking n i l2 := by
  induction l1 with
  | nil => simp [countThinking]
  | cons e rest ih =>
      show (if e = SSEEvent.thinking n i then 1 else 0) + countThinking n i (rest ++ l2) =
        ((if e = SSEEvent.thinking n i then 1 else 0) + countThinking n i rest) + countThinking n i l2
      rw [ih]
      omega

/-- Terminal-event counts add over concatenation. -/
theorem countTerminal_append (l1 l2 : List SSEEvent) :
    countTerminal (l1 ++ l2) = countTerminal l1 + countTerminal l2 := by
  induction l1 with
  | nil => simp [countTerminal]
  | cons e rest ih =>
      show (if isTerminal e then 1 else 0) + countTerminal (rest ++ l2) =
        ((if isTerminal e then 1 else 0) + countTerminal rest) + countTerminal l2
      rw [ih]
      omega

/-- Core deduplication invariant of the tool call loop: the number of
thinking events emitted for one identity, plus one when its key was already
seen, never exceeds one when its key is seen afterwards — and keys are never
forgotten. -/
theorem ptc_thinking_bound (n i : String) (tcs : List ToolCall) : ∀ st : GenState,
    countThinking n i (processToolCalls st tcs).2 +
      (if (n ++ "_" ++ i) ∈ st.seen then 1 else 0) ≤
      (if (n ++ "_" ++ i) ∈ (processToolCalls st tcs).1.seen then 1 else 0) := by
  induction tcs with
  | nil =>
      intro st
      simp [processToolCalls, countThinking]
  | cons tc rest ih =>
      intro st
      by_cases hk : toolCallKey tc ∈ st.seen
      · rw [processToolCalls_cons, if_pos hk]
        exact ih st
      · rw [processToolCalls_cons, if_neg hk]
        have ihs := ih (GenState.mk st.finalResponse (st.stepCount + 1) (toolCallKey tc :: st.seen))
        simp only [countThinking]
        by_cases he : SSEEvent.thinking (tcName tc) (tcId tc) = SSEEvent.thinking n i
        · have hni : tcName tc = n ∧ tcId tc = i := by
            injection he with h1 h2
            exact ⟨h1, h2⟩
          have hkey : toolCallKey tc = n ++ "_" ++ i := by
            rw [toolCallKey, hni.1, hni.2]
          have h0 : (if (n ++ "_" ++ i) ∈ st.seen then 1 else 0) = 0 := by
            rw [if_neg]
            rw [← hkey]
            exact hk
          have hmem1 : (n ++ "_" ++ i) ∈
              (GenState.mk st.finalResponse (st.stepCount + 1) (toolCallKey tc :: st.seen)).seen := by
            show (n ++ "_" ++ i) ∈ toolCallKey tc :: st.seen
            rw [hkey]
            exact List.mem_cons_self _ _
          rw [if_pos he, h0]
          rw [if_pos hmem1] at ihs
          omega
        · have hle : (if (n ++ "_" ++ i) ∈ st.seen then 1 else 0) ≤
              (if (n ++ "_" ++ i) ∈
                (GenState.mk st.finalResponse (st.stepCount + 1) (toolCallKey tc :: st.seen)).seen
                then 1 else 0) := by
            by_cases hm : (n ++ "_" ++ i) ∈ st.seen
            · rw [if_pos hm, if_pos (show (n ++ "_" ++ i) ∈
                (GenState.mk st.finalResponse (st.stepCount + 1) (toolCallKey tc :: st.seen)).seen
                from List.mem_cons_of_mem _ hm)]
            · rw [if_neg hm]
              omega
          rw [if_neg he]
          omega

/-- The deduplication invariant lifted to the processing of one message. -/
theorem pm_thinking_bound (n i : String) (st : GenState) (m : Message) :
    countThinking n i (processMessage st m).2 +
      (if (n ++ "_" ++ i) ∈ st.seen then 1 else 0) ≤
      (if (n ++ "_" ++ i) ∈ (processMessage st m).1.seen then 1 else 0) := by
  cases m with
  | other => simp [processMessage, countThinking]
  | ai content tcs =>
      cases tcs with
      | cons hd rest => exact ptc_thinking_bound n i (hd :: rest) st
      | nil =>
          by_cases hc : content = ""
          · rw [show processMessage st (Message.ai content []) = (st, []) from by
                simp only [processMessage]; rw [if_pos hc]]
            simp [countThinking]
          · by_cases hcc : content.trim ≠ "" ∧ content.trim ≠ st.finalResponse
            · rw [show processMessage st (Message.ai content []) =
                  (GenState.mk content.trim st.stepCount st.seen, [SSEEvent.token content.trim]) from by
                    simp only [processMessage]; rw [if_neg hc, if_pos hcc]]
              simp [countThinking]
            · rw [show processMessage st (Message.ai content []) = (st, []) from by
                  simp only [processMessage]; rw [if_neg hc, if_neg hcc]]
              simp [countThinking]

/-- The deduplication invariant lifted to one snapshot. -/
theorem psnap_thinking_bound (n i : String) (st : GenState) (msgs : List Message) :
    countThinking n i (processSnapshot st msgs).2 +
      (if (n ++ "_" ++ i) ∈ st.seen then 1 else 0) ≤
      (if (n ++ "_" ++ i) ∈ (processSnapshot st msgs).1.seen then 1 else 0) := by
  have hdef : processSnapshot st msgs =
      match msgs.getLast? with
      | none => (st, [])
      | some m => processMessage st m := rfl
  rw [hdef]
  cases msgs.getLast? with
  | none => simp [countThinking]
  | some m => exact pm_thinking_bound n i st m

/-- The deduplication invariant over a whole snapshot sequence. -/
theorem psnaps_thinking_bound (n i : String) (snaps : List (List Message)) : ∀ st : GenState,
    countThinking n i (processSnapshots st snaps).2 +
      (if (n ++ "_" ++ i) ∈ st.seen then 1 else 0) ≤
      (if (n ++ "_" ++ i) ∈ (processSnapshots st snaps).1.seen then 1 else 0) := by
  induction snaps with
  | nil =>
      intro st
      simp [processSnapshots, countThinking]
  | cons s rest ih =>
      intro st
      have hdef2 : (processSnapshots st (s :: rest)).2 =
          (processSnapshot st s).2 ++ (processSnapshots (processSnapshot st s).1 rest).2 := rfl
      have hdef1 : (processSnapshots st (s :: rest)).1 =
          (processSnapshots (processSnapshot st s).1 rest).1 := rfl
      rw [hdef2, hdef1, countThinking_append]
      have h1 := psnap_thinking_bound n i st s
      have h2 := ih (processSnapshot st s).1
      omega

/-- C5: over the whole mapped event stream of one turn, each tool call
identity (tool name, call id) yields at most one thinking event, however many
(possibly non-adjacent) snapshots repeat the same pending call: once the key
is in `seen_tool_calls` it is never surfaced again. -/
theorem c5_thinking_dedup :
    ∀ (snaps : List (List Message)) (failure : Option String) (n i : String),
      countThinking n i (generate snaps failure) ≤ 1 := by
  intro snaps failure n i
  have h := psnaps_thinking_bound n i snaps initGenState
  have h0 : (if (n ++ "_" ++ i) ∈ initGenState.seen then 1 else 0) = 0 := rfl
  rw [h0] at h
  have h1 : (if (n ++ "_" ++ i) ∈ (processSnapshots initGenState snaps).1.seen then 1 else 0) ≤ 1 := by
    by_cases hm : (n ++ "_" ++ i) ∈ (processSnapshots initGenState snaps).1.seen
    · rw [if_pos hm]
    · rw [if_neg hm]
      omega
  cases failure with
  | some e =>
      rw [show generate snaps (some e) =
          (processSnapshots initGenState snaps).2 ++ [SSEEvent.error e] from rfl]
      rw [countThinking_append]
      have h2 : countThinking n i [SSEEvent.error e] = 0 := by simp [countThinking]
      omega
  | none =>
      have hg : ∃ c, generate snaps none =
          (processSnapshots initGenState snaps).2 ++ [SSEEvent.final c] := by
        by_cases hf : (processSnapshots initGenState snaps).1.finalResponse ≠ ""
        · exact ⟨_, by simp only [generate]; rw [if_pos hf]⟩
        · exact ⟨"Task completed.", by simp only [generate]; rw [if_neg hf]⟩
      obtain ⟨c, hc⟩ := hg
      rw [hc, countThinking_append]
      have h2 : countThinking n i [SSEEvent.final c] = 0 := by simp [countThinking]
      omega

/-- The tool call loop emits no terminal event. -/
theorem ptc_noTerminal (tcs : List ToolCall) : ∀ st : GenState,
    countTerminal (processToolCalls st tcs).2 = 0 := by
  induction tcs with
  | nil => intro st; rfl
  | cons tc rest ih =>
      intro st
      by_cases hk : toolCallKey tc ∈ st.seen
      · rw [processToolCalls_cons, if_pos hk]
        exact ih st
      · rw [processToolCalls_cons, if_neg hk]
        show (if isTerminal (SSEEvent.thinking (tcName tc) (tcId tc)) then 1 else 0) +
          countTerminal (processToolCalls
            (GenState.mk st.finalResponse (st.stepCount + 1) (toolCallKey tc :: st.seen)) rest).2 = 0
        rw [ih (GenState.mk st.finalResponse (st.stepCount + 1) (toolCallKey tc :: st.seen))]
        rfl

/-- Message processing emits no terminal event. -/
theorem pm_noTerminal (st : GenState) (m : Message) :
    countTerminal (processMessage st m).2 = 0 := by
  cases m with
  | other => rfl
  | ai content tcs =>
      cases tcs with
      | cons hd rest => exact ptc_noTerminal (hd :: rest) st
      | nil =>
          by_cases hc : content = ""
          · rw [show processMessage st (Message.ai content []) = (st, []) from by
                simp only [processMessage]; rw [if_pos hc]]
            rfl
          · by_cases hcc : content.trim ≠ "" ∧ content.trim ≠ st.finalResponse
            · rw [show processMessage st (Message.ai content []) =
                  (GenState.mk content.trim st.stepCount st.seen, [SSEEvent.token content.trim]) from by
                    simp only [processMessage]; rw [if_neg hc, if_pos hcc]]
              rfl
            · rw [show processMessage st (Message.ai content []) = (st, []) from by
                  simp only [processMessage]; rw [if_neg hc, if_neg hcc]]
              rfl

/-- Snapshot processing emits no terminal event. -/
theorem psnap_noTerminal (st : GenState) (msgs : List Message) :
    countTerminal (processSnapshot st msgs).2 = 0 := by
  have hdef : processSnapshot st msgs =
      match msgs.getLast? with
      | none => (st, [])
      | some m => processMessage st m := rfl
  rw [hdef]
  cases msgs.getLast? with
  | none => rfl
  | some m => exact pm_noTerminal st m

/-- The whole snapshot loop emits no terminal event: final and error events
only come from the epilogue of the generator. -/
theorem psnaps_noTerminal (snaps : List (List Message)) : ∀ st : GenState,
    countTerminal (processSnapshots st snaps).2 = 0 := by
  induction snaps with
  | nil => intro st; rfl
  | cons s rest ih =>
      intro st
      have hdef2 : (processSnapshots st (s :: rest)).2 =
          (processSnapshot st s).2 ++ (processSnapshots (processSnapshot st s).1 rest).2 := rfl
      rw [hdef2, countTerminal_append, psnap_noTerminal st s, ih (processSnapshot st s).1]

/-- C6: for every finite source sequence, with or without a trailing failure,
the mapped stream ends with a terminal event — a final event on normal
completion, an error event on failure — and contains exactly one terminal
event in total, so no final event can follow an error event. -/
theorem c6_terminal_unique :
    ∀ (snaps : List (List Message)) (failure : Option String),
      ∃ e, (generate snaps failure).getLast? = some e ∧ isTerminal e = true ∧
        countTerminal (generate snaps failure) = 1 := by
  intro snaps failure
  cases failure with
  | some err =>
      have hg : generate snaps (some err) =
          (processSnapshots initGenState snaps).2 ++ [SSEEvent.error err] := rfl
      refine ⟨SSEEvent.error err, ?_, rfl, ?_⟩
      · rw [hg]
        exact List.getLast?_concat _
      · rw [hg, countTerminal_append, psnaps_noTerminal snaps initGenState]
        rfl
  | none =>
      by_cases hf : (processSnapshots initGenState snaps).1.finalResponse ≠ ""
      · have hg : generate snaps none = (processSnapshots initGenState snaps).2 ++
            [SSEEvent.final (processSnapshots initGenState snaps).1.finalResponse] := by
          simp only [generate]
          rw [if_pos hf]
        refine ⟨SSEEvent.final (processSnapshots initGenState snaps).1.finalResponse, ?_, rfl, ?_⟩
        · rw [hg]
          exact List.getLast?_concat _
        · rw [hg, countTerminal_append, psnaps_noTerminal snaps initGenState]
          rfl
      · have hg : generate snaps none = (processSnapshots initGenState snaps).2 ++
            [SSEEvent.final "Task completed."] := by
          simp only [generate]
          rw [if_neg hf]
        refine ⟨SSEEvent.final "Task completed.", ?_, rfl, ?_⟩
        · rw [hg]
          exact List.getLast?_concat _
        · rw [hg, countTerminal_append, psnaps_noTerminal snaps initGenState]
          rfl

/-- A pending call whose key is unseen and not duplicated in the batch gets a
thinking event in the emitted batch. -/
theorem ptc_mem_thinking (tcs : List ToolCall) : ∀ (st : GenState) (tc : ToolCall),
    tc ∈ tcs → toolCallKey tc ∉ st.seen →
    tcs.Pairwise (fun a b => toolCallKey a ≠ toolCallKey b) →
    SSEEvent.thinking (tcName tc) (tcId tc) ∈ (processToolCalls st tcs).2 := by
  induction tcs with
  | nil =>
      intro st tc hmem _ _
      cases hmem
  | cons hd rest ih =>
      intro st tc hmem hns hpw
      rw [List.mem_cons] at hmem
      by_cases hk : toolCallKey hd ∈ st.seen
      · rw [processToolCalls_cons, if_pos hk]
        cases hmem with
        | inl he =>
            rw [he] at hns
            exact absurd hk hns
        | inr he => exact ih st tc he hns (List.Pairwise.of_cons hpw)
      · rw [processToolCalls_cons, if_neg hk]
        cases hmem with
        | inl he =>
            rw [he]
            exact List.mem_cons_self _ _
        | inr he =>
            refine List.mem_cons_of_mem _ (ih _ tc he ?_ (List.Pairwise.of_cons hpw))
            show toolCallKey tc ∉ toolCallKey hd :: st.seen
            intro hmem2
            rw [List.mem_cons] at hmem2
            cases hmem2 with
            | inl h1 =>
                have hne := (List.pairwise_cons.mp hpw).1 tc he
                exact hne h1.symm
            | inr h1 => exact hns h1

/-- C7 (amended): in a snapshot batch of pending tool calls with pairwise
distinct keys, every call not yet seen produces a thinking event; the payload
of that event carries the tool name — its content is exactly
`Calling {tool_name}...` — but not the tool arguments, which are only logged
to the server console. -/
theorem c7_thinking_payload :
    ∀ (st : GenState) (tcs : List ToolCall) (tc : ToolCall),
      tc ∈ tcs →
      toolCallKey tc ∉ st.seen →
      tcs.Pairwise (fun a b => toolCallKey a ≠ toolCallKey b) →
      SSEEvent.thinking (tcName tc) (tcId tc) ∈ (processToolCalls st tcs).2 ∧
      eventContent (SSEEvent.thinking (tcName tc) (tcId tc)) = "Calling " ++ tcName tc ++ "..." ∧
      eventData (SSEEvent.thinking (tcName tc) (tcId tc)) =
        "data: " ++ jsonDumps (JValue.obj
          [("type", JValue.str "thinking"),
           ("content", JValue.str ("Calling " ++ tcName tc ++ "..."))]) ++ "\n\n" := by
  intro st tcs tc hmem hns hpw
  exact ⟨ptc_mem_thinking tcs st tc hmem hns hpw, rfl, rfl⟩

/-- C7 witness: a single unseen pending call yields its thinking event. -/
theorem c7_thinking_payload_witness :
    SSEEvent.thinking (tcName tcEx) (tcId tcEx) ∈ (processToolCalls initGenState [tcEx]).2 ∧
    eventContent (SSEEvent.thinking (tcName tcEx) (tcId tcEx)) = "Calling " ++ tcName tcEx ++ "..." ∧
    eventData (SSEEvent.thinking (tcName tcEx) (tcId tcEx)) =
      "data: " ++ jsonDumps (JValue.obj
        [("type", JValue.str "thinking"),
         ("content", JValue.str ("Calling " ++ tcName tcEx ++ "..."))]) ++ "\n\n" :=
  c7_thinking_payload initGenState [tcEx] tcEx (List.mem_singleton.mpr rfl)
    (by simp [initGenState]) (List.pairwise_singleton _ _)

/-- C7 counterexample: the thinking event payload does not carry the tool
arguments: the whole mapped stream is unchanged when the arguments change,
and the serialized arguments do not occur in the emitted event data. -/
theorem c7_thinking_payload_counterexample :
    generate [[Message.ai "" [tcEx]]] none =
      [SSEEvent.thinking "t" "1", SSEEvent.final "Task completed."] ∧
    generate [[Message.ai "" [tcEx2]]] none = generate [[Message.ai "" [tcEx]]] none ∧
    strContains (eventData (SSEEvent.thinking "t" "1")) (jsonDumps tcEx.args) = false := by
  refine ⟨rfl, rfl, by decide⟩
